import Mathlib

/-!
Shallow embedding of the edgemodelr R binding layer (src/bindings.cpp).

The underlying llama.cpp engine (tokenization, decoding, sampling draws)
is an external collaborator; it is modelled as an `Engine` record of
deterministic functions.  Machine doubles `temperature` and `top_p` only
ever take part in the exact comparisons `top_p < 1.0f` and
`temperature > 0.0f`, so they are modelled as rationals.  Fallible C++
paths that call Rcpp `stop` are modelled with `Except String`.
-/

namespace EdgeModel

/-- Token ids are `llama_token` (a 32-bit int); modelled as `Int`. -/
abbrev Token := Int

/-- Stages of a llama.cpp sampler chain, as added in
`edge_completion_internal` / `edge_completion_stream_internal`:
`llama_sampler_init_top_p(top_p, 1)`, `llama_sampler_init_temp(temperature)`,
`llama_sampler_init_dist(12345)`. -/
inductive SamplerStage where
  | topP (p : Rat) (minKeep : Nat)
  | temp (t : Rat)
  | dist (seed : Nat)
deriving DecidableEq

/-- Sampler chain construction, common to both completion entry points
(bindings.cpp lines 164-175 and 291-302): a nucleus stage when
`top_p < 1.0f`, a temperature stage when `temperature > 0.0f`, and always
a final categorical-draw stage with the hard-coded seed 12345. -/
def build_sampler_chain (temperature top_p : Rat) : List SamplerStage :=
  (if top_p < 1 then [SamplerStage.topP top_p 1] else []) ++
  (if 0 < temperature then [SamplerStage.temp temperature] else []) ++
  [SamplerStage.dist 12345]

/-- The handle owned by the R external pointer: a loaded model reference and
an inference context reference, each possibly already released (NULL). -/
structure EdgeModelContext where
  model : Option Nat
  ctx : Option Nat
deriving DecidableEq

/-- Validity check of `EdgeModelContext::is_valid`: both references non-null. -/
def EdgeModelContext.is_valid (e : EdgeModelContext) : Bool :=
  e.model.isSome && e.ctx.isSome

/-- Release actions performed by `edge_free_model_internal`, in order:
`llama_free(ctx)` and `llama_model_free(model)`. -/
inductive FreeEvent where
  | freeCtx (r : Nat)
  | freeModel (r : Nat)
deriving DecidableEq

/-- Observable outcome of `edge_free_model_internal`: the handle state after
the call, the release calls made (in order), and whether an error escaped
to the caller (the function body is wrapped in try/catch that downgrades
exceptions to a warning, so `raised` is always false). -/
structure FreeResult where
  state : EdgeModelContext
  events : List FreeEvent
  raised : Bool
deriving DecidableEq

/-- Embedding of `edge_free_model_internal` (bindings.cpp lines 218-234):
free the context if present and null it, then free the model if present and
null it; never raise. -/
def edge_free_model_internal (e : EdgeModelContext) : FreeResult :=
  let p1 :=
    match e.ctx with
    | some c => ([FreeEvent.freeCtx c], { e with ctx := none })
    | none => ([], e)
  let p2 :=
    match p1.2.model with
    | some m => ([FreeEvent.freeModel m], { p1.2 with model := none })
    | none => ([], p1.2)
  { state := p2.2, events := p1.1 ++ p2.1, raised := false }

/-- Embedding of `is_valid_model_internal` (bindings.cpp lines 237-244):
`none` stands for an argument that is not a live external pointer (the
catch-all returns false); otherwise report the handle's validity. -/
def is_valid_model_internal : Option EdgeModelContext → Bool
  | none => false
  | some e => e.is_valid

/-- Observable outcome of `edge_load_model_internal`: either an error message
or a fresh handle, together with the model references released on the way
(the failure-path `llama_model_free(model)` at line 104). -/
structure LoadTrace where
  result : Except String EdgeModelContext
  freedModels : List Nat

/-- Embedding of `edge_load_model_internal` (bindings.cpp lines 79-119).
The engine collaborators are abstracted: `model?` is the outcome of
`llama_model_load_from_file` (none = NULL), `fileGood` the readability
probe used to pick the error message, and `mkCtx` the outcome of
`llama_init_from_model` on the loaded model.  On context-creation failure
the loaded model is freed before the error is signalled. -/
def edge_load_model_internal (model? : Option Nat) (fileGood : Bool)
    (mkCtx : Nat → Option Nat) : LoadTrace :=
  match model? with
  | none =>
    if fileGood then
      { result := Except.error "Failed to load GGUF model", freedModels := [] }
    else
      { result := Except.error "Model file does not exist or is not readable",
        freedModels := [] }
  | some m =>
    match mkCtx m with
    | none =>
      { result := Except.error "Failed to create context for model",
        freedModels := [m] }
    | some c =>
      { result := Except.ok { model := some m, ctx := some c },
        freedModels := [] }

/-- Deterministic abstraction of the llama.cpp collaborators used by the two
completion entry points.  `sample chain ptoks hist` is the token returned by
`llama_sampler_sample` when the sampler chain was built as `chain`, has
accepted exactly the generated tokens `hist` (in order), and the context
holds the decoded tokens `ptoks ++ hist`; with the hard-coded seed this
state determines the draw.  `piece t = none` models
`llama_token_to_piece` reporting a non-positive length.  `decodeOk c b`
is the success of `llama_decode` of batch `b` when the context already
holds `c`.  `measureCount` is the negated first `llama_tokenize` probe and
`fillOk` the success of the second, filling call. -/
structure Engine where
  measureCount : String → Int
  fillOk : String → Bool
  promptTokens : String → List Token
  sample : List SamplerStage → List Token → List Token → Token
  isEog : Token → Bool
  piece : Token → Option String
  decodeOk : List Token → List Token → Bool

/-- Reason a generation loop stopped; a ghost observation of which exit the
C++ loop took (not itself stored by the code). -/
inductive StopReason where
  | budget
  | eog
  | callerStop
  | decodeFail
deriving DecidableEq

/-- Per-token iteration record of the blocking loop: an end-of-generation
stop, or a completed iteration carrying the detokenized piece (none when
`llama_token_to_piece` returned no text) and the decode success flag. -/
inductive BlockOutcome where
  | eogStop
  | went (appended : Option String) (decodeOk : Bool)
deriving DecidableEq

/-- State threaded through the blocking generation loop: the generated
tokens accepted by the sampler and decoded into the context, the
accumulating result string (initialised to the prompt), and the ghost
iteration log. -/
structure BlockState where
  hist : List Token
  res : String
  iters : List (Token × BlockOutcome)
deriving DecidableEq

/-- Embedding of the generation loop of `edge_completion_internal`
(bindings.cpp lines 178-205): sample, stop on end-of-generation, append the
piece when non-empty, accept, decode (stopping on failure). -/
def blockLoop (E : Engine) (chain : List SamplerStage) (ptoks : List Token) :
    Nat → BlockState → BlockState × StopReason
  | 0, st => (st, StopReason.budget)
  | fuel + 1, st =>
    let t := E.sample chain ptoks st.hist
    if E.isEog t then
      ({ st with iters := st.iters ++ [(t, BlockOutcome.eogStop)] }, StopReason.eog)
    else
      let res2 :=
        match E.piece t with
        | some s => st.res ++ s
        | none => st.res
      let ok := E.decodeOk (ptoks ++ st.hist) [t]
      let st2 : BlockState :=
        { hist := st.hist ++ [t], res := res2,
          iters := st.iters ++ [(t, BlockOutcome.went (E.piece t) ok)] }
      if ok then blockLoop E chain ptoks fuel st2 else (st2, StopReason.decodeFail)

/-- Full observable outcome of one blocking completion: the returned string,
the generated tokens decoded into the context, the iteration log and the
stop reason. -/
structure BlockRun where
  res : String
  hist : List Token
  iters : List (Token × BlockOutcome)
  reason : StopReason
deriving DecidableEq

/-- Instrumented semantics of `edge_completion_internal` after the prompt has
been tokenized and decoded: run the loop for `n_predict` iterations
starting from the prompt string. -/
def edge_completion_run (E : Engine) (prompt : String) (n_predict : Int)
    (temperature top_p : Rat) : BlockRun :=
  let chain := build_sampler_chain temperature top_p
  let p := blockLoop E chain (E.promptTokens prompt) n_predict.toNat
    { hist := [], res := prompt, iters := [] }
  { res := p.1.res, hist := p.1.hist, iters := p.1.iters, reason := p.2 }

/-- Embedding of `edge_completion_internal` (bindings.cpp lines 122-215):
validity check, two-phase tokenization, prompt decode, then the generation
loop; returns the prompt followed by the generated text. -/
def edge_completion_internal (E : Engine) (validHandle : Bool) (prompt : String)
    (n_predict : Int) (temperature top_p : Rat) : Except String String :=
  if validHandle = false then Except.error "Invalid model context"
  else if E.measureCount prompt ≤ 0 then
    Except.error "Failed to determine prompt token count"
  else if E.fillOk prompt = false then Except.error "Failed to tokenize prompt"
  else if E.decodeOk [] (E.promptTokens prompt) = false then
    Except.error "Failed to process prompt"
  else Except.ok (edge_completion_run E prompt n_predict temperature top_p).res

/-- Argument list passed to the R streaming callback for one emitted token
(bindings.cpp lines 328-333). -/
structure CallbackData where
  token : String
  position : Nat
  is_final : Bool
  total_tokens : Nat
deriving DecidableEq

/-- Callback data for the emitted token `s` at position `i` when `c` tokens
have been counted (the per-token invocations always pass
`is_final = false`). -/
def cbData (s : String) (i c : Nat) : CallbackData :=
  { token := s, position := i, is_final := false, total_tokens := c }

/-- Result of invoking the R callback: an R logical vector, any other value,
or an exception escaping the callback (caught by the C++ try/catch). -/
inductive CbResult where
  | logical (v : List Bool)
  | nonLogical
  | raises
deriving DecidableEq

/-- Early-stop test applied to the callback result (bindings.cpp lines
338-343): stop iff the result is a non-empty logical vector whose first
element is false.  A raising callback never reaches this test, so
`stopSignal CbResult.raises = false` by definition. -/
def stopSignal : CbResult → Bool
  | CbResult.logical (b :: _) => !b
  | _ => false

/-- Per-token iteration record of the streaming loop: an end-of-generation
stop; an emitted token whose callback requested a stop; an emitted token
after which the loop accepted and decoded (with the decode flag); or a
token with empty piece, silently accepted and decoded. -/
inductive StreamOutcome where
  | eogStop
  | emitStop (s : String) (r : CbResult)
  | emitGo (s : String) (r : CbResult) (decodeOk : Bool)
  | skipGo (decodeOk : Bool)
deriving DecidableEq

/-- Piece emitted by one streaming iteration, when any. -/
def StreamOutcome.emittedPiece : StreamOutcome → Option String
  | StreamOutcome.emitStop s _ => some s
  | StreamOutcome.emitGo s _ _ => some s
  | _ => none

/-- Pieces emitted across a streaming iteration log, in order. -/
def emittedStrings (iters : List (Token × StreamOutcome)) : List String :=
  iters.filterMap (fun p => p.2.emittedPiece)

/-- Tokens of a streaming iteration log that were accepted into the sampler
and decoded into the context (every iteration that did not stop at the
end-of-generation check or at the callback's stop request). -/
def wentTokens (iters : List (Token × StreamOutcome)) : List Token :=
  iters.filterMap (fun p =>
    match p.2 with
    | StreamOutcome.emitGo _ _ _ => some p.1
    | StreamOutcome.skipGo _ => some p.1
    | _ => none)

/-- State threaded through the streaming generation loop, mirroring the
locals of `edge_completion_stream_internal`: `hist` the generated tokens
accepted and decoded so far, `full` the `full_response` string, `toks` the
`tokens_generated` vector, `count` the `tokens_count`, `stopped` the
`stopped_early` flag, plus ghost observations: warning count, callback
invocations and the iteration log. -/
structure StreamState where
  hist : List Token
  full : String
  toks : List String
  count : Nat
  stopped : Bool
  warnings : Nat
  invocations : List CallbackData
  iters : List (Token × StreamOutcome)
deriving DecidableEq

/-- Embedding of the generation loop of `edge_completion_stream_internal`
(bindings.cpp lines 305-361): sample, stop on end-of-generation; when the
piece is non-empty, append it, count it, invoke the callback (a raising
callback adds a warning and generation continues) and honour a stop
signal before accepting; otherwise accept and decode silently.  `i` is the
loop index used for the callback's position field. -/
def streamLoop (E : Engine) (cb : CallbackData → CbResult)
    (chain : List SamplerStage) (ptoks : List Token) :
    Nat → Nat → StreamState → StreamState × StopReason
  | 0, _, st => (st, StopReason.budget)
  | fuel + 1, i, st =>
    let t := E.sample chain ptoks st.hist
    if E.isEog t then
      ({ st with
          stopped := true,
          iters := st.iters ++ [(t, StreamOutcome.eogStop)] }, StopReason.eog)
    else
      match E.piece t with
      | some s =>
        let d : CallbackData := cbData s (i + 1) (st.count + 1)
        let r := cb d
        let w := st.warnings + (if r = CbResult.raises then 1 else 0)
        if stopSignal r then
          ({ st with
              full := st.full ++ s, toks := st.toks ++ [s],
              count := st.count + 1, stopped := true, warnings := w,
              invocations := st.invocations ++ [d],
              iters := st.iters ++ [(t, StreamOutcome.emitStop s r)] },
           StopReason.callerStop)
        else
          let ok := E.decodeOk (ptoks ++ st.hist) [t]
          let st2 : StreamState :=
            { hist := st.hist ++ [t], full := st.full ++ s,
              toks := st.toks ++ [s], count := st.count + 1,
              stopped := !ok, warnings := w,
              invocations := st.invocations ++ [d],
              iters := st.iters ++ [(t, StreamOutcome.emitGo s r ok)] }
          if ok then streamLoop E cb chain ptoks fuel (i + 1) st2
          else (st2, StopReason.decodeFail)
      | none =>
        let ok := E.decodeOk (ptoks ++ st.hist) [t]
        let st2 : StreamState :=
          { st with
            hist := st.hist ++ [t], stopped := !ok,
            iters := st.iters ++ [(t, StreamOutcome.skipGo ok)] }
        if ok then streamLoop E cb chain ptoks fuel (i + 1) st2
        else (st2, StopReason.decodeFail)

/-- Argument list passed to the R callback at the final invocation
(bindings.cpp lines 365-372). -/
structure FinalData where
  token : String
  position : Nat
  is_final : Bool
  total_tokens : Nat
  full_response : String
  stopped_early : Bool
deriving DecidableEq

/-- The R list returned by `edge_completion_stream_internal`
(bindings.cpp lines 382-388). -/
structure StreamReturn where
  full_response : String
  tokens_generated : List String
  total_tokens : Nat
  stopped_early : Bool
  original_prompt : String
deriving DecidableEq

/-- Full observable outcome of one streaming completion: the returned list,
plus ghost observations of the stop reason, warnings, callback invocations,
the iteration log, the final-callback data and whether it raised, and the
generated tokens accepted into the sampler and decoded into the context. -/
structure StreamRun where
  ret : StreamReturn
  reason : StopReason
  warnings : Nat
  invocations : List CallbackData
  iters : List (Token × StreamOutcome)
  finalData : FinalData
  finalWarned : Bool
  accepted : List Token
deriving DecidableEq

/-- Instrumented semantics of `edge_completion_stream_internal` after the
prompt has been tokenized and decoded: run the loop from the initial state,
then perform the final callback (whose failure is downgraded to a warning)
and assemble the returned list. -/
def edge_completion_stream_run (E : Engine) (prompt : String)
    (cb : CallbackData → CbResult) (finalRaises : FinalData → Bool)
    (n_predict : Int) (temperature top_p : Rat) : StreamRun :=
  let chain := build_sampler_chain temperature top_p
  let p := streamLoop E cb chain (E.promptTokens prompt) n_predict.toNat 0
    { hist := [], full := prompt, toks := [], count := 0, stopped := false,
      warnings := 0, invocations := [], iters := [] }
  let fd : FinalData :=
    { token := "", position := p.1.count, is_final := true,
      total_tokens := p.1.count, full_response := p.1.full,
      stopped_early := p.1.stopped }
  let fw := finalRaises fd
  { ret :=
      { full_response := p.1.full, tokens_generated := p.1.toks,
        total_tokens := p.1.count, stopped_early := p.1.stopped,
        original_prompt := prompt },
    reason := p.2,
    warnings := p.1.warnings + (if fw then 1 else 0),
    invocations := p.1.invocations, iters := p.1.iters,
    finalData := fd, finalWarned := fw, accepted := p.1.hist }

/-- Embedding of `edge_completion_stream_internal` (bindings.cpp lines
247-393): validity check, two-phase tokenization, prompt decode, then the
streaming loop and the final callback. -/
def edge_completion_stream_internal (E : Engine) (validHandle : Bool)
    (prompt : String) (cb : CallbackData → CbResult)
    (finalRaises : FinalData → Bool) (n_predict : Int)
    (temperature top_p : Rat) : Except String StreamRun :=
  if validHandle = false then Except.error "Invalid model context"
  else if E.measureCount prompt ≤ 0 then
    Except.error "Failed to determine prompt token count"
  else if E.fillOk prompt = false then Except.error "Failed to tokenize prompt"
  else if E.decodeOk [] (E.promptTokens prompt) = false then
    Except.error "Failed to process prompt"
  else Except.ok
    (edge_completion_stream_run E prompt cb finalRaises n_predict temperature top_p)

/-- Concatenation of a list of strings, in order. -/
def joinAll : List String → String
  | [] => ""
  | s :: rest => s ++ joinAll rest

/-- Piece appended by one blocking iteration, when any. -/
def BlockOutcome.emittedPiece : BlockOutcome → Option String
  | BlockOutcome.went (some s) _ => some s
  | _ => none

/-- Pieces appended across a blocking iteration log, in order. -/
def blockEmitted (iters : List (Token × BlockOutcome)) : List String :=
  iters.filterMap (fun p => p.2.emittedPiece)

/-- Tokens of a blocking iteration log that were accepted and decoded. -/
def blockWent (iters : List (Token × BlockOutcome)) : List Token :=
  iters.filterMap (fun p =>
    match p.2 with
    | BlockOutcome.went _ _ => some p.1
    | _ => none)

/-- Concrete engine for witnesses: the prompt tokenizes to `[9]`, the sampler
draws token 1 (piece "a"), then token 2 (piece "b"), then token 0, which is
the end-of-generation marker; decoding always succeeds. -/
def engAB : Engine :=
  { measureCount := fun _ => 1
    fillOk := fun _ => true
    promptTokens := fun _ => [9]
    sample := fun _ _ hist =>
      if hist.length = 0 then 1 else if hist.length = 1 then 2 else 0
    isEog := fun t => t == 0
    piece := fun t => if t == 1 then some "a" else if t == 2 then some "b" else none
    decodeOk := fun _ _ => true }

/-- Concrete engine whose first draw, token 3, detokenizes to no text (the
non-positive piece-length case), followed by token 1 (piece "a") and then
the end-of-generation marker. -/
def engSkip : Engine :=
  { engAB with
    sample := fun _ _ hist =>
      if hist.length = 0 then 3 else if hist.length = 1 then 1 else 0 }

/-- Concrete engine whose first draw, token 1 (piece "a"), is followed at
once by the end-of-generation marker. -/
def engA1 : Engine :=
  { engAB with
    sample := fun _ _ hist => if hist.length = 0 then 1 else 0 }

/-- Callback that returns a non-logical value, so it never requests a stop. -/
def cbContinue : CallbackData → CbResult := fun _ => CbResult.nonLogical

/-- Callback that returns the R logical vector `FALSE` on every invocation. -/
def cbHalt : CallbackData → CbResult := fun _ => CbResult.logical [false]

/-- Callback that raises on every invocation. -/
def cbRaising : CallbackData → CbResult := fun _ => CbResult.raises

/-- Final callback behaviour that never raises. -/
def finalQuiet : FinalData → Bool := fun _ => false

/-- Final callback behaviour that always raises. -/
def finalRaising : FinalData → Bool := fun _ => true

end EdgeModel

namespace EdgeModel

/-- Appending distributes over string-list concatenation. -/
theorem joinAll_append (a b : List String) :
    joinAll (a ++ b) = joinAll a ++ joinAll b := by
  induction a with
  | nil => simp [joinAll, String.empty_append]
  | cons s rest ih => simp [joinAll, ih, String.append_assoc]

/-- Unfolding of the blocking loop with no budget left. -/
theorem blockLoop_zero (E : Engine) (chain : List SamplerStage)
    (ptoks : List Token) (st : BlockState) :
    blockLoop E chain ptoks 0 st = (st, StopReason.budget) := rfl

/-- Unfolding of the blocking loop when the sampled token is the
end-of-generation marker. -/
theorem blockLoop_succ_eog (E : Engine) (chain : List SamplerStage)
    (ptoks : List Token) (fuel : Nat) (st : BlockState)
    (he : E.isEog (E.sample chain ptoks st.hist) = true) :
    blockLoop E chain ptoks (fuel + 1) st =
      ({ st with
          iters := st.iters ++
            [(E.sample chain ptoks st.hist, BlockOutcome.eogStop)] },
       StopReason.eog) := by
  simp [blockLoop, he]

/-- Unfolding of the blocking loop for an ordinary iteration whose decode
succeeds. -/
theorem blockLoop_succ_go (E : Engine) (chain : List SamplerStage)
    (ptoks : List Token) (fuel : Nat) (st : BlockState)
    (he : E.isEog (E.sample chain ptoks st.hist) = false)
    (hd : E.decodeOk (ptoks ++ st.hist) [E.sample chain ptoks st.hist] = true) :
    blockLoop E chain ptoks (fuel + 1) st =
      blockLoop E chain ptoks fuel
        { hist := st.hist ++ [E.sample chain ptoks st.hist],
          res :=
            (match E.piece (E.sample chain ptoks st.hist) with
             | some s => st.res ++ s
             | none => st.res),
          iters := st.iters ++ [(E.sample chain ptoks st.hist,
            BlockOutcome.went (E.piece (E.sample chain ptoks st.hist)) true)] } := by
  simp [blockLoop, he, hd]

/-- Unfolding of the blocking loop for an iteration whose decode fails. -/
theorem blockLoop_succ_decodeFail (E : Engine) (chain : List SamplerStage)
    (ptoks : List Token) (fuel : Nat) (st : BlockState)
    (he : E.isEog (E.sample chain ptoks st.hist) = false)
    (hd : E.decodeOk (ptoks ++ st.hist) [E.sample chain ptoks st.hist] = false) :
    blockLoop E chain ptoks (fuel + 1) st =
      ({ hist := st.hist ++ [E.sample chain ptoks st.hist],
         res :=
           (match E.piece (E.sample chain ptoks st.hist) with
            | some s => st.res ++ s
            | none => st.res),
         iters := st.iters ++ [(E.sample chain ptoks st.hist,
           BlockOutcome.went (E.piece (E.sample chain ptoks st.hist)) false)] },
       StopReason.decodeFail) := by
  simp [blockLoop, he, hd]

/-- Unfolding of the streaming loop with no budget left. -/
theorem streamLoop_zero (E : Engine) (cb : CallbackData → CbResult)
    (chain : List SamplerStage) (ptoks : List Token) (i : Nat)
    (st : StreamState) :
    streamLoop E cb chain ptoks 0 i st = (st, StopReason.budget) := rfl

/-- Unfolding of the streaming loop when the sampled token is the
end-of-generation marker. -/
theorem streamLoop_succ_eog (E : Engine) (cb : CallbackData → CbResult)
    (chain : List SamplerStage) (ptoks : List Token) (fuel i : Nat)
    (st : StreamState)
    (he : E.isEog (E.sample chain ptoks st.hist) = true) :
    streamLoop E cb chain ptoks (fuel + 1) i st =
      ({ st with
          stopped := true,
          iters := st.iters ++
            [(E.sample chain ptoks st.hist, StreamOutcome.eogStop)] },
       StopReason.eog) := by
  simp [streamLoop, he]

/-- Unfolding of the streaming loop for an emitted token whose callback
requests a stop. -/
theorem streamLoop_succ_emitStop (E : Engine) (cb : CallbackData → CbResult)
    (chain : List SamplerStage) (ptoks : List Token) (fuel i : Nat)
    (st : StreamState) (s : String)
    (he : E.isEog (E.sample chain ptoks st.hist) = false)
    (hp : E.piece (E.sample chain ptoks st.hist) = some s)
    (hs : stopSignal (cb (cbData s (i + 1) (st.count + 1))) = true) :
    streamLoop E cb chain ptoks (fuel + 1) i st =
      ({ st with
          full := st.full ++ s, toks := st.toks ++ [s],
          count := st.count + 1, stopped := true,
          warnings := st.warnings +
            (if cb (cbData s (i + 1) (st.count + 1)) = CbResult.raises then 1 else 0),
          invocations := st.invocations ++ [cbData s (i + 1) (st.count + 1)],
          iters := st.iters ++ [(E.sample chain ptoks st.hist,
            StreamOutcome.emitStop s (cb (cbData s (i + 1) (st.count + 1))))] },
       StopReason.callerStop) := by
  simp [streamLoop, he, hp, hs]

/-- Unfolding of the streaming loop for an emitted token whose callback does
not request a stop and whose decode succeeds. -/
theorem streamLoop_succ_emitGo (E : Engine) (cb : CallbackData → CbResult)
    (chain : List SamplerStage) (ptoks : List Token) (fuel i : Nat)
    (st : StreamState) (s : String)
    (he : E.isEog (E.sample chain ptoks st.hist) = false)
    (hp : E.piece (E.sample chain ptoks st.hist) = some s)
    (hs : stopSignal (cb (cbData s (i + 1) (st.count + 1))) = false)
    (hd : E.decodeOk (ptoks ++ st.hist) [E.sample chain ptoks st.hist] = true) :
    streamLoop E cb chain ptoks (fuel + 1) i st =
      streamLoop E cb chain ptoks fuel (i + 1)
        { hist := st.hist ++ [E.sample chain ptoks st.hist],
          full := st.full ++ s, toks := st.toks ++ [s],
          count := st.count + 1, stopped := false,
          warnings := st.warnings +
            (if cb (cbData s (i + 1) (st.count + 1)) = CbResult.raises then 1 else 0),
          invocations := st.invocations ++ [cbData s (i + 1) (st.count + 1)],
          iters := st.iters ++ [(E.sample chain ptoks st.hist,
            StreamOutcome.emitGo s (cb (cbData s (i + 1) (st.count + 1))) true)] } := by
  simp [streamLoop, he, hp, hs, hd]

/-- Unfolding of the streaming loop for an emitted token whose callback does
not request a stop and whose decode fails. -/
theorem streamLoop_succ_emitDecodeFail (E : Engine) (cb : CallbackData → CbResult)
    (chain : List SamplerStage) (ptoks : List Token) (fuel i : Nat)
    (st : StreamState) (s : String)
    (he : E.isEog (E.sample chain ptoks st.hist) = false)
    (hp : E.piece (E.sample chain ptoks st.hist) = some s)
    (hs : stopSignal (cb (cbData s (i + 1) (st.count + 1))) = false)
    (hd : E.decodeOk (ptoks ++ st.hist) [E.sample chain ptoks st.hist] = false) :
    streamLoop E cb chain ptoks (fuel + 1) i st =
      ({ hist := st.hist ++ [E.sample chain ptoks st.hist],
         full := st.full ++ s, toks := st.toks ++ [s],
         count := st.count + 1, stopped := true,
         warnings := st.warnings +
           (if cb (cbData s (i + 1) (st.count + 1)) = CbResult.raises then 1 else 0),
         invocations := st.invocations ++ [cbData s (i + 1) (st.count + 1)],
         iters := st.iters ++ [(E.sample chain ptoks st.hist,
           StreamOutcome.emitGo s (cb (cbData s (i + 1) (st.count + 1))) false)] },
       StopReason.decodeFail) := by
  simp [streamLoop, he, hp, hs, hd]

/-- Unfolding of the streaming loop for a token with empty piece whose decode
succeeds. -/
theorem streamLoop_succ_skipGo (E : Engine) (cb : CallbackData → CbResult)
    (chain : List SamplerStage) (ptoks : List Token) (fuel i : Nat)
    (st : StreamState)
    (he : E.isEog (E.sample chain ptoks st.hist) = false)
    (hp : E.piece (E.sample chain ptoks st.hist) = none)
    (hd : E.decodeOk (ptoks ++ st.hist) [E.sample chain ptoks st.hist] = true) :
    streamLoop E cb chain ptoks (fuel + 1) i st =
      streamLoop E cb chain ptoks fuel (i + 1)
        { st with
          hist := st.hist ++ [E.sample chain ptoks st.hist],
          stopped := false,
          iters := st.iters ++
            [(E.sample chain ptoks st.hist, StreamOutcome.skipGo true)] } := by
  simp [streamLoop, he, hp, hd]

/-- Unfolding of the streaming loop for a token with empty piece whose decode
fails. -/
theorem streamLoop_succ_skipDecodeFail (E : Engine) (cb : CallbackData → CbResult)
    (chain : List SamplerStage) (ptoks : List Token) (fuel i : Nat)
    (st : StreamState)
    (he : E.isEog (E.sample chain ptoks st.hist) = false)
    (hp : E.piece (E.sample chain ptoks st.hist) = none)
    (hd : E.decodeOk (ptoks ++ st.hist) [E.sample chain ptoks st.hist] = false) :
    streamLoop E cb chain ptoks (fuel + 1) i st =
      ({ st with
          hist := st.hist ++ [E.sample chain ptoks st.hist],
          stopped := true,
          iters := st.iters ++
            [(E.sample chain ptoks st.hist, StreamOutcome.skipGo false)] },
       StopReason.decodeFail) := by
  simp [streamLoop, he, hp, hd]

/-- Main invariant of the streaming loop: the iteration log grows by a
suffix `new`, and the emitted-token vector, the response string, the token
count, the callback-invocation texts and the accepted-and-decoded token
history are all determined by `new`. -/
theorem streamLoop_spec (E : Engine) (cb : CallbackData → CbResult)
    (chain : List SamplerStage) (ptoks : List Token) :
    ∀ (fuel i : Nat) (st : StreamState),
      ∃ new : List (Token × StreamOutcome),
        (streamLoop E cb chain ptoks fuel i st).1.iters = st.iters ++ new ∧
        (streamLoop E cb chain ptoks fuel i st).1.toks =
          st.toks ++ emittedStrings new ∧
        (streamLoop E cb chain ptoks fuel i st).1.full =
          st.full ++ joinAll (emittedStrings new) ∧
        (streamLoop E cb chain ptoks fuel i st).1.count =
          st.count + (emittedStrings new).length ∧
        (streamLoop E cb chain ptoks fuel i st).1.invocations.map
            (fun d => d.token) =
          st.invocations.map (fun d => d.token) ++ emittedStrings new ∧
        (streamLoop E cb chain ptoks fuel i st).1.hist =
          st.hist ++ wentTokens new := by
  intro fuel
  induction fuel with
  | zero =>
    intro i st
    refine ⟨[], ?_⟩
    simp [streamLoop_zero, emittedStrings, wentTokens, joinAll,
      String.append_empty]
  | succ fuel ih =>
    intro i st
    cases he : E.isEog (E.sample chain ptoks st.hist) with
    | true =>
      refine ⟨[(E.sample chain ptoks st.hist, StreamOutcome.eogStop)], ?_⟩
      rw [streamLoop_succ_eog E cb chain ptoks fuel i st he]
      simp [emittedStrings, wentTokens, StreamOutcome.emittedPiece, joinAll,
        String.append_empty]
    | false =>
      rcases hp : E.piece (E.sample chain ptoks st.hist) with _ | s
      · cases hd : E.decodeOk (ptoks ++ st.hist) [E.sample chain ptoks st.hist] with
        | false =>
          refine ⟨[(E.sample chain ptoks st.hist, StreamOutcome.skipGo false)], ?_⟩
          rw [streamLoop_succ_skipDecodeFail E cb chain ptoks fuel i st he hp hd]
          simp [emittedStrings, wentTokens, StreamOutcome.emittedPiece, joinAll,
            String.append_empty]
        | true =>
          rw [streamLoop_succ_skipGo E cb chain ptoks fuel i st he hp hd]
          obtain ⟨new, h1, h2, h3, h4, h5, h6⟩ := ih (i + 1)
            { st with
              hist := st.hist ++ [E.sample chain ptoks st.hist],
              stopped := false,
              iters := st.iters ++
                [(E.sample chain ptoks st.hist, StreamOutcome.skipGo true)] }
          refine ⟨(E.sample chain ptoks st.hist, StreamOutcome.skipGo true) :: new,
            ?_, ?_, ?_, ?_, ?_, ?_⟩
          · rw [h1]; simp
          · rw [h2]; simp [emittedStrings, StreamOutcome.emittedPiece]
          · rw [h3]; simp [emittedStrings, StreamOutcome.emittedPiece]
          · rw [h4]; simp [emittedStrings, StreamOutcome.emittedPiece]
          · rw [h5]; simp [emittedStrings, StreamOutcome.emittedPiece]
          · rw [h6]; simp [wentTokens]
      · cases hs : stopSignal (cb (cbData s (i + 1) (st.count + 1))) with
        | true =>
          refine ⟨[(E.sample chain ptoks st.hist,
            StreamOutcome.emitStop s (cb (cbData s (i + 1) (st.count + 1))))], ?_⟩
          rw [streamLoop_succ_emitStop E cb chain ptoks fuel i st s he hp hs]
          simp [emittedStrings, wentTokens, StreamOutcome.emittedPiece, joinAll,
            String.append_empty, cbData]
        | false =>
          cases hd : E.decodeOk (ptoks ++ st.hist) [E.sample chain ptoks st.hist] with
          | false =>
            refine ⟨[(E.sample chain ptoks st.hist,
              StreamOutcome.emitGo s (cb (cbData s (i + 1) (st.count + 1))) false)], ?_⟩
            rw [streamLoop_succ_emitDecodeFail E cb chain ptoks fuel i st s he hp hs hd]
            simp [emittedStrings, wentTokens, StreamOutcome.emittedPiece, joinAll,
              String.append_empty, cbData]
          | true =>
            rw [streamLoop_succ_emitGo E cb chain ptoks fuel i st s he hp hs hd]
            obtain ⟨new, h1, h2, h3, h4, h5, h6⟩ := ih (i + 1)
              { hist := st.hist ++ [E.sample chain ptoks st.hist],
                full := st.full ++ s, toks := st.toks ++ [s],
                count := st.count + 1, stopped := false,
                warnings := st.warnings +
                  (if cb (cbData s (i + 1) (st.count + 1)) = CbResult.raises
                   then 1 else 0),
                invocations := st.invocations ++ [cbData s (i + 1) (st.count + 1)],
                iters := st.iters ++ [(E.sample chain ptoks st.hist,
                  StreamOutcome.emitGo s (cb (cbData s (i + 1) (st.count + 1))) true)] }
            refine ⟨(E.sample chain ptoks st.hist,
              StreamOutcome.emitGo s (cb (cbData s (i + 1) (st.count + 1))) true) :: new,
              ?_, ?_, ?_, ?_, ?_, ?_⟩
            · rw [h1]; simp
            · rw [h2]; simp [emittedStrings, StreamOutcome.emittedPiece]
            · rw [h3]
              simp [emittedStrings, StreamOutcome.emittedPiece, joinAll,
                String.append_assoc]
            · rw [h4]
              simp [emittedStrings, StreamOutcome.emittedPiece]
              omega
            · rw [h5]; simp [emittedStrings, StreamOutcome.emittedPiece, cbData]
            · rw [h6]; simp [wentTokens]

/-- Main invariant of the blocking loop: the iteration log grows by a suffix
`new`, and the result string and the token history are determined by it. -/
theorem blockLoop_spec (E : Engine) (chain : List SamplerStage)
    (ptoks : List Token) :
    ∀ (fuel : Nat) (st : BlockState),
      ∃ new : List (Token × BlockOutcome),
        (blockLoop E chain ptoks fuel st).1.iters = st.iters ++ new ∧
        (blockLoop E chain ptoks fuel st).1.res =
          st.res ++ joinAll (blockEmitted new) ∧
        (blockLoop E chain ptoks fuel st).1.hist = st.hist ++ blockWent new := by
  intro fuel
  induction fuel with
  | zero =>
    intro st
    refine ⟨[], ?_⟩
    simp [blockLoop_zero, blockEmitted, blockWent, joinAll, String.append_empty]
  | succ fuel ih =>
    intro st
    cases he : E.isEog (E.sample chain ptoks st.hist) with
    | true =>
      refine ⟨[(E.sample chain ptoks st.hist, BlockOutcome.eogStop)], ?_⟩
      rw [blockLoop_succ_eog E chain ptoks fuel st he]
      simp [blockEmitted, blockWent, BlockOutcome.emittedPiece, joinAll,
        String.append_empty]
    | false =>
      cases hd : E.decodeOk (ptoks ++ st.hist) [E.sample chain ptoks st.hist] with
      | false =>
        refine ⟨[(E.sample chain ptoks st.hist,
          BlockOutcome.went (E.piece (E.sample chain ptoks st.hist)) false)], ?_⟩
        rw [blockLoop_succ_decodeFail E chain ptoks fuel st he hd]
        rcases hp : E.piece (E.sample chain ptoks st.hist) with _ | s <;>
          simp [hp, blockEmitted, blockWent, BlockOutcome.emittedPiece, joinAll,
            String.append_empty]
      | true =>
        rw [blockLoop_succ_go E chain ptoks fuel st he hd]
        obtain ⟨new, h1, h2, h3⟩ := ih
          { hist := st.hist ++ [E.sample chain ptoks st.hist],
            res :=
              (match E.piece (E.sample chain ptoks st.hist) with
               | some s => st.res ++ s
               | none => st.res),
            iters := st.iters ++ [(E.sample chain ptoks st.hist,
              BlockOutcome.went (E.piece (E.sample chain ptoks st.hist)) true)] }
        refine ⟨(E.sample chain ptoks st.hist,
          BlockOutcome.went (E.piece (E.sample chain ptoks st.hist)) true) :: new,
          ?_, ?_, ?_⟩
        · rw [h1]; simp
        · rw [h2]
          rcases hp : E.piece (E.sample chain ptoks st.hist) with _ | s <;>
            simp [hp, blockEmitted, BlockOutcome.emittedPiece, joinAll,
              String.append_assoc]
        · rw [h3]; simp [blockWent]

/-- Every entry of the streaming iteration log records an end-of-generation
token exactly when it is the log's end-of-generation stop entry. -/
theorem streamLoop_eog_iff (E : Engine) (cb : CallbackData → CbResult)
    (chain : List SamplerStage) (ptoks : List Token) :
    ∀ (fuel i : Nat) (st : StreamState),
      (∀ p ∈ st.iters, E.isEog p.1 = true ↔ p.2 = StreamOutcome.eogStop) →
      ∀ p ∈ (streamLoop E cb chain ptoks fuel i st).1.iters,
        E.isEog p.1 = true ↔ p.2 = StreamOutcome.eogStop := by
  intro fuel
  induction fuel with
  | zero =>
    intro i st h
    simpa [streamLoop_zero] using h
  | succ fuel ih =>
    intro i st h
    cases he : E.isEog (E.sample chain ptoks st.hist) with
    | true =>
      rw [streamLoop_succ_eog E cb chain ptoks fuel i st he]
      intro p hp
      rcases List.mem_append.mp hp with hmem | hmem
      · exact h p hmem
      · simp only [List.mem_singleton] at hmem
        subst hmem
        simp [he]
    | false =>
      rcases hp : E.piece (E.sample chain ptoks st.hist) with _ | s
      · cases hd : E.decodeOk (ptoks ++ st.hist) [E.sample chain ptoks st.hist] with
        | false =>
          rw [streamLoop_succ_skipDecodeFail E cb chain ptoks fuel i st he hp hd]
          intro p hmem
          rcases List.mem_append.mp hmem with hmem | hmem
          · exact h p hmem
          · simp only [List.mem_singleton] at hmem
            subst hmem
            simp [he]
        | true =>
          rw [streamLoop_succ_skipGo E cb chain ptoks fuel i st he hp hd]
          apply ih
          intro p hmem
          rcases List.mem_append.mp hmem with hmem | hmem
          · exact h p hmem
          · simp only [List.mem_singleton] at hmem
            subst hmem
            simp [he]
      · cases hs : stopSignal (cb (cbData s (i + 1) (st.count + 1))) with
        | true =>
          rw [streamLoop_succ_emitStop E cb chain ptoks fuel i st s he hp hs]
          intro p hmem
          rcases List.mem_append.mp hmem with hmem | hmem
          · exact h p hmem
          · simp only [List.mem_singleton] at hmem
            subst hmem
            simp [he]
        | false =>
          cases hd : E.decodeOk (ptoks ++ st.hist) [E.sample chain ptoks st.hist] with
          | false =>
            rw [streamLoop_succ_emitDecodeFail E cb chain ptoks fuel i st s he hp hs hd]
            intro p hmem
            rcases List.mem_append.mp hmem with hmem | hmem
            · exact h p hmem
            · simp only [List.mem_singleton] at hmem
              subst hmem
              simp [he]
          | true =>
            rw [streamLoop_succ_emitGo E cb chain ptoks fuel i st s he hp hs hd]
            apply ih
            intro p hmem
            rcases List.mem_append.mp hmem with hmem | hmem
            · exact h p hmem
            · simp only [List.mem_singleton] at hmem
              subst hmem
              simp [he]

/-- Every entry of the blocking iteration log records an end-of-generation
token exactly when it is the log's end-of-generation stop entry. -/
theorem blockLoop_eog_iff (E : Engine) (chain : List SamplerStage)
    (ptoks : List Token) :
    ∀ (fuel : Nat) (st : BlockState),
      (∀ p ∈ st.iters, E.isEog p.1 = true ↔ p.2 = BlockOutcome.eogStop) →
      ∀ p ∈ (blockLoop E chain ptoks fuel st).1.iters,
        E.isEog p.1 = true ↔ p.2 = BlockOutcome.eogStop := by
  intro fuel
  induction fuel with
  | zero =>
    intro st h
    simpa [blockLoop_zero] using h
  | succ fuel ih =>
    intro st h
    cases he : E.isEog (E.sample chain ptoks st.hist) with
    | true =>
      rw [blockLoop_succ_eog E chain ptoks fuel st he]
      intro p hmem
      rcases List.mem_append.mp hmem with hmem | hmem
      · exact h p hmem
      · simp only [List.mem_singleton] at hmem
        subst hmem
        simp [he]
    | false =>
      cases hd : E.decodeOk (ptoks ++ st.hist) [E.sample chain ptoks st.hist] with
      | false =>
        rw [blockLoop_succ_decodeFail E chain ptoks fuel st he hd]
        intro p hmem
        rcases List.mem_append.mp hmem with hmem | hmem
        · exact h p hmem
        · simp only [List.mem_singleton] at hmem
          subst hmem
          simp [he]
      | true =>
        rw [blockLoop_succ_go E chain ptoks fuel st he hd]
        apply ih
        intro p hmem
        rcases List.mem_append.mp hmem with hmem | hmem
        · exact h p hmem
        · simp only [List.mem_singleton] at hmem
          subst hmem
          simp [he]

/-- Starting from an unstopped state, the streaming loop's `stopped_early`
flag ends true exactly when the loop did not run out of budget. -/
theorem streamLoop_stopped (E : Engine) (cb : CallbackData → CbResult)
    (chain : List SamplerStage) (ptoks : List Token) :
    ∀ (fuel i : Nat) (st : StreamState), st.stopped = false →
      ((streamLoop E cb chain ptoks fuel i st).1.stopped = true ↔
        (streamLoop E cb chain ptoks fuel i st).2 ≠ StopReason.budget) := by
  intro fuel
  induction fuel with
  | zero =>
    intro i st h
    simp [streamLoop_zero, h]
  | succ fuel ih =>
    intro i st h
    cases he : E.isEog (E.sample chain ptoks st.hist) with
    | true =>
      rw [streamLoop_succ_eog E cb chain ptoks fuel i st he]
      simp
    | false =>
      rcases hp : E.piece (E.sample chain ptoks st.hist) with _ | s
      · cases hd : E.decodeOk (ptoks ++ st.hist) [E.sample chain ptoks st.hist] with
        | false =>
          rw [streamLoop_succ_skipDecodeFail E cb chain ptoks fuel i st he hp hd]
          simp
        | true =>
          rw [streamLoop_succ_skipGo E cb chain ptoks fuel i st he hp hd]
          exact ih (i + 1) _ rfl
      · cases hs : stopSignal (cb (cbData s (i + 1) (st.count + 1))) with
        | true =>
          rw [streamLoop_succ_emitStop E cb chain ptoks fuel i st s he hp hs]
          simp
        | false =>
          cases hd : E.decodeOk (ptoks ++ st.hist) [E.sample chain ptoks st.hist] with
          | false =>
            rw [streamLoop_succ_emitDecodeFail E cb chain ptoks fuel i st s he hp hs hd]
            simp
          | true =>
            rw [streamLoop_succ_emitGo E cb chain ptoks fuel i st s he hp hs hd]
            exact ih (i + 1) _ rfl

/-- With an always-raising callback, every per-token invocation produces
exactly one warning: the warning count tracks the invocation count. -/
theorem streamLoop_warnings_raises (E : Engine) (cb : CallbackData → CbResult)
    (chain : List SamplerStage) (ptoks : List Token)
    (hcb : ∀ d, cb d = CbResult.raises) :
    ∀ (fuel i : Nat) (st : StreamState),
      st.warnings = st.invocations.length →
      (streamLoop E cb chain ptoks fuel i st).1.warnings =
        (streamLoop E cb chain ptoks fuel i st).1.invocations.length := by
  intro fuel
  induction fuel with
  | zero =>
    intro i st h
    simpa [streamLoop_zero] using h
  | succ fuel ih =>
    intro i st h
    cases he : E.isEog (E.sample chain ptoks st.hist) with
    | true =>
      rw [streamLoop_succ_eog E cb chain ptoks fuel i st he]
      simpa using h
    | false =>
      rcases hp : E.piece (E.sample chain ptoks st.hist) with _ | s
      · cases hd : E.decodeOk (ptoks ++ st.hist) [E.sample chain ptoks st.hist] with
        | false =>
          rw [streamLoop_succ_skipDecodeFail E cb chain ptoks fuel i st he hp hd]
          simpa using h
        | true =>
          rw [streamLoop_succ_skipGo E cb chain ptoks fuel i st he hp hd]
          exact ih (i + 1) _ (by simpa using h)
      · cases hs : stopSignal (cb (cbData s (i + 1) (st.count + 1))) with
        | true =>
          rw [streamLoop_succ_emitStop E cb chain ptoks fuel i st s he hp hs]
          simp [hcb (cbData s (i + 1) (st.count + 1)), h]
        | false =>
          cases hd : E.decodeOk (ptoks ++ st.hist) [E.sample chain ptoks st.hist] with
          | false =>
            rw [streamLoop_succ_emitDecodeFail E cb chain ptoks fuel i st s he hp hs hd]
            simp [hcb (cbData s (i + 1) (st.count + 1)), h]
          | true =>
            rw [streamLoop_succ_emitGo E cb chain ptoks fuel i st s he hp hs hd]
            apply ih (i + 1)
            simp [hcb (cbData s (i + 1) (st.count + 1)), h]

/-- A callback that never signals a stop can never cause the loop to exit
with a caller-requested stop. -/
theorem streamLoop_no_callerStop (E : Engine) (cb : CallbackData → CbResult)
    (chain : List SamplerStage) (ptoks : List Token)
    (hcb : ∀ d, stopSignal (cb d) = false) :
    ∀ (fuel i : Nat) (st : StreamState),
      (streamLoop E cb chain ptoks fuel i st).2 ≠ StopReason.callerStop := by
  intro fuel
  induction fuel with
  | zero =>
    intro i st
    simp [streamLoop_zero]
  | succ fuel ih =>
    intro i st
    cases he : E.isEog (E.sample chain ptoks st.hist) with
    | true =>
      rw [streamLoop_succ_eog E cb chain ptoks fuel i st he]
      simp
    | false =>
      rcases hp : E.piece (E.sample chain ptoks st.hist) with _ | s
      · cases hd : E.decodeOk (ptoks ++ st.hist) [E.sample chain ptoks st.hist] with
        | false =>
          rw [streamLoop_succ_skipDecodeFail E cb chain ptoks fuel i st he hp hd]
          simp
        | true =>
          rw [streamLoop_succ_skipGo E cb chain ptoks fuel i st he hp hd]
          exact ih (i + 1) _
      · cases hs : stopSignal (cb (cbData s (i + 1) (st.count + 1))) with
        | true =>
          rw [hcb (cbData s (i + 1) (st.count + 1))] at hs
          cases hs
        | false =>
          cases hd : E.decodeOk (ptoks ++ st.hist) [E.sample chain ptoks st.hist] with
          | false =>
            rw [streamLoop_succ_emitDecodeFail E cb chain ptoks fuel i st s he hp hs hd]
            simp
          | true =>
            rw [streamLoop_succ_emitGo E cb chain ptoks fuel i st s he hp hs hd]
            exact ih (i + 1) _

/-- When every decode succeeds and the callback never signals a stop, the
loop can only stop at an end-of-generation token or by exhausting the
budget. -/
theorem streamLoop_reason_eog_or_budget (E : Engine)
    (cb : CallbackData → CbResult) (chain : List SamplerStage)
    (ptoks : List Token) (hdec : ∀ c b, E.decodeOk c b = true)
    (hcb : ∀ d, stopSignal (cb d) = false) :
    ∀ (fuel i : Nat) (st : StreamState),
      (streamLoop E cb chain ptoks fuel i st).2 = StopReason.eog ∨
      (streamLoop E cb chain ptoks fuel i st).2 = StopReason.budget := by
  intro fuel
  induction fuel with
  | zero =>
    intro i st
    simp [streamLoop_zero]
  | succ fuel ih =>
    intro i st
    cases he : E.isEog (E.sample chain ptoks st.hist) with
    | true =>
      rw [streamLoop_succ_eog E cb chain ptoks fuel i st he]
      simp
    | false =>
      rcases hp : E.piece (E.sample chain ptoks st.hist) with _ | s
      · rw [streamLoop_succ_skipGo E cb chain ptoks fuel i st he hp
          (hdec (ptoks ++ st.hist) [E.sample chain ptoks st.hist])]
        exact ih (i + 1) _
      · cases hs : stopSignal (cb (cbData s (i + 1) (st.count + 1))) with
        | true =>
          rw [hcb (cbData s (i + 1) (st.count + 1))] at hs
          cases hs
        | false =>
          rw [streamLoop_succ_emitGo E cb chain ptoks fuel i st s he hp hs
            (hdec (ptoks ++ st.hist) [E.sample chain ptoks st.hist])]
          exact ih (i + 1) _

/-- With a callback that requests a stop on the first counted token, the
loop either never emits a token, or stops at the first emitted token with
one invocation, a caller-requested stop reason, and without accepting or
decoding that token (exactly one logged iteration beyond the history). -/
theorem streamLoop_first_stop (E : Engine) (cb : CallbackData → CbResult)
    (chain : List SamplerStage) (ptoks : List Token)
    (hcb : ∀ d, d.total_tokens = 1 → stopSignal (cb d) = true) :
    ∀ (fuel i : Nat) (st : StreamState),
      st.count = 0 → st.invocations = [] →
      ((streamLoop E cb chain ptoks fuel i st).1.invocations = [] ∧
        (streamLoop E cb chain ptoks fuel i st).1.count = 0) ∨
      ((streamLoop E cb chain ptoks fuel i st).1.count = 1 ∧
        (streamLoop E cb chain ptoks fuel i st).1.stopped = true ∧
        (streamLoop E cb chain ptoks fuel i st).2 = StopReason.callerStop ∧
        (streamLoop E cb chain ptoks fuel i st).1.invocations.length = 1 ∧
        (streamLoop E cb chain ptoks fuel i st).1.hist.length + 1 +
            st.iters.length =
          st.hist.length + (streamLoop E cb chain ptoks fuel i st).1.iters.length) := by
  intro fuel
  induction fuel with
  | zero =>
    intro i st hc hinv
    left
    simp [streamLoop_zero, hc, hinv]
  | succ fuel ih =>
    intro i st hc hinv
    cases he : E.isEog (E.sample chain ptoks st.hist) with
    | true =>
      left
      rw [streamLoop_succ_eog E cb chain ptoks fuel i st he]
      simp [hc, hinv]
    | false =>
      rcases hp : E.piece (E.sample chain ptoks st.hist) with _ | s
      · cases hd : E.decodeOk (ptoks ++ st.hist) [E.sample chain ptoks st.hist] with
        | false =>
          left
          rw [streamLoop_succ_skipDecodeFail E cb chain ptoks fuel i st he hp hd]
          simp [hc, hinv]
        | true =>
          rw [streamLoop_succ_skipGo E cb chain ptoks fuel i st he hp hd]
          rcases ih (i + 1)
            { st with
              hist := st.hist ++ [E.sample chain ptoks st.hist],
              stopped := false,
              iters := st.iters ++
                [(E.sample chain ptoks st.hist, StreamOutcome.skipGo true)] }
            hc hinv with hL | hR
          · exact Or.inl hL
          · right
            refine ⟨hR.1, hR.2.1, hR.2.2.1, hR.2.2.2.1, ?_⟩
            have := hR.2.2.2.2
            simp only [List.length_append, List.length_singleton] at this
            omega
      · have hsig : stopSignal (cb (cbData s (i + 1) (st.count + 1))) = true := by
          apply hcb
          simp [cbData, hc]
        right
        rw [streamLoop_succ_emitStop E cb chain ptoks fuel i st s he hp hsig]
        refine ⟨by simp [hc], by simp, by simp, by simp [hinv], ?_⟩
        simp only [List.length_append, List.length_singleton]
        omega

/-- When the callback never signals a stop, the blocking loop and the
streaming loop evolve the token history and the accumulated text
identically: started from the same history and the same text they produce
the same text. -/
theorem loops_res_agree (E : Engine) (cb : CallbackData → CbResult)
    (chain : List SamplerStage) (ptoks : List Token)
    (hcb : ∀ d, stopSignal (cb d) = false) :
    ∀ (fuel i : Nat) (stB : BlockState) (stS : StreamState),
      stB.hist = stS.hist → stB.res = stS.full →
      (blockLoop E chain ptoks fuel stB).1.res =
        (streamLoop E cb chain ptoks fuel i stS).1.full := by
  intro fuel
  induction fuel with
  | zero =>
    intro i stB stS hh hr
    simpa [blockLoop_zero, streamLoop_zero] using hr
  | succ fuel ih =>
    intro i stB stS hh hr
    have hsample : E.sample chain ptoks stB.hist = E.sample chain ptoks stS.hist := by
      rw [hh]
    cases he : E.isEog (E.sample chain ptoks stS.hist) with
    | true =>
      have heB : E.isEog (E.sample chain ptoks stB.hist) = true := by
        rw [hsample]; exact he
      rw [blockLoop_succ_eog E chain ptoks fuel stB heB,
        streamLoop_succ_eog E cb chain ptoks fuel i stS he]
      simpa using hr
    | false =>
      have heB : E.isEog (E.sample chain ptoks stB.hist) = false := by
        rw [hsample]; exact he
      rcases hp : E.piece (E.sample chain ptoks stS.hist) with _ | s
      · have hpB : E.piece (E.sample chain ptoks stB.hist) = none := by
          rw [hsample]; exact hp
        cases hd : E.decodeOk (ptoks ++ stS.hist) [E.sample chain ptoks stS.hist] with
        | false =>
          have hdB : E.decodeOk (ptoks ++ stB.hist) [E.sample chain ptoks stB.hist] = false := by
            rw [hh]; exact hd
          rw [blockLoop_succ_decodeFail E chain ptoks fuel stB heB hdB,
            streamLoop_succ_skipDecodeFail E cb chain ptoks fuel i stS he hp hd]
          simpa [hpB] using hr
        | true =>
          have hdB : E.decodeOk (ptoks ++ stB.hist) [E.sample chain ptoks stB.hist] = true := by
            rw [hh]; exact hd
          rw [blockLoop_succ_go E chain ptoks fuel stB heB hdB,
            streamLoop_succ_skipGo E cb chain ptoks fuel i stS he hp hd]
          apply ih (i + 1)
          · simp [hh, hsample]
          · simpa [hpB] using hr
      · have hpB : E.piece (E.sample chain ptoks stB.hist) = some s := by
          rw [hsample]; exact hp
        have hs : stopSignal (cb (cbData s (i + 1) (stS.count + 1))) = false :=
          hcb (cbData s (i + 1) (stS.count + 1))
        cases hd : E.decodeOk (ptoks ++ stS.hist) [E.sample chain ptoks stS.hist] with
        | false =>
          have hdB : E.decodeOk (ptoks ++ stB.hist) [E.sample chain ptoks stB.hist] = false := by
            rw [hh]; exact hd
          rw [blockLoop_succ_decodeFail E chain ptoks fuel stB heB hdB,
            streamLoop_succ_emitDecodeFail E cb chain ptoks fuel i stS s he hp hs hd]
          simp [hpB, hr]
        | true =>
          have hdB : E.decodeOk (ptoks ++ stB.hist) [E.sample chain ptoks stB.hist] = true := by
            rw [hh]; exact hd
          rw [blockLoop_succ_go E chain ptoks fuel stB heB hdB,
            streamLoop_succ_emitGo E cb chain ptoks fuel i stS s he hp hs hd]
          apply ih (i + 1)
          · simp [hh, hsample]
          · simp [hpB, hr]

/-- C1: under identical parameters, a valid handle, successful prompt
tokenization and prompt decode, and a callback that never requests a stop,
the blocking completion returns the prompt followed by exactly the
generated text of the streaming completion (both drive the same sampler
chain with the same fixed seed through identical histories). -/
theorem completion_blocking_eq_streaming_text (E : Engine) (prompt : String)
    (cb : CallbackData → CbResult) (fr : FinalData → Bool) (n_predict : Int)
    (temperature top_p : Rat)
    (hm : 0 < E.measureCount prompt) (hf : E.fillOk prompt = true)
    (hd : E.decodeOk [] (E.promptTokens prompt) = true)
    (hcb : ∀ d, stopSignal (cb d) = false) :
    ∃ g, edge_completion_internal E true prompt n_predict temperature top_p =
        Except.ok (prompt ++ g) ∧
      edge_completion_stream_internal E true prompt cb fr n_predict
          temperature top_p =
        Except.ok (edge_completion_stream_run E prompt cb fr n_predict
          temperature top_p) ∧
      (edge_completion_stream_run E prompt cb fr n_predict
        temperature top_p).ret.full_response = prompt ++ g := by
  have hnot : ¬ E.measureCount prompt ≤ 0 := not_le.mpr hm
  obtain ⟨new, h1, h2, h3, h4, h5, h6⟩ := streamLoop_spec E cb
    (build_sampler_chain temperature top_p) (E.promptTokens prompt)
    n_predict.toNat 0
    { hist := [], full := prompt, toks := [], count := 0, stopped := false,
      warnings := 0, invocations := [], iters := [] }
  have hag := loops_res_agree E cb (build_sampler_chain temperature top_p)
    (E.promptTokens prompt) hcb n_predict.toNat 0
    { hist := [], res := prompt, iters := [] }
    { hist := [], full := prompt, toks := [], count := 0, stopped := false,
      warnings := 0, invocations := [], iters := [] } rfl rfl
  refine ⟨joinAll (emittedStrings new), ?_, ?_, ?_⟩
  · have hbl : edge_completion_internal E true prompt n_predict temperature top_p =
        Except.ok (edge_completion_run E prompt n_predict temperature top_p).res := by
      simp [edge_completion_internal, hnot, hf, hd]
    rw [hbl]
    exact congrArg Except.ok (hag.trans h3)
  · simp [edge_completion_stream_internal, hnot, hf, hd]
  · exact h3

/-- Witness for C1 at the engine `engAB` (two generated tokens, then
end-of-generation) with a never-stopping callback. -/
theorem completion_blocking_eq_streaming_text_witness :
    ∃ g, edge_completion_internal engAB true "p" 5 1 1 = Except.ok ("p" ++ g) ∧
      edge_completion_stream_internal engAB true "p" cbContinue finalQuiet 5 1 1 =
        Except.ok (edge_completion_stream_run engAB "p" cbContinue finalQuiet 5 1 1) ∧
      (edge_completion_stream_run engAB "p" cbContinue finalQuiet
        5 1 1).ret.full_response = "p" ++ g :=
  completion_blocking_eq_streaming_text engAB "p" cbContinue finalQuiet 5 1 1
    (by decide) rfl rfl (fun d => rfl)

/-- C7: with a non-positive `n_predict`, a valid handle and successful prompt
tokenization and prompt decode, no token is generated: the blocking call
returns exactly the prompt and the streaming result reports zero tokens,
no fragments, the bare prompt as full response, and no early stop. -/
theorem nonpositive_n_predict_generates_nothing (E : Engine) (prompt : String)
    (cb : CallbackData → CbResult) (fr : FinalData → Bool) (n_predict : Int)
    (temperature top_p : Rat)
    (hm : 0 < E.measureCount prompt) (hf : E.fillOk prompt = true)
    (hd : E.decodeOk [] (E.promptTokens prompt) = true)
    (hn : n_predict ≤ 0) :
    edge_completion_internal E true prompt n_predict temperature top_p =
      Except.ok prompt ∧
    edge_completion_stream_internal E true prompt cb fr n_predict
        temperature top_p =
      Except.ok (edge_completion_stream_run E prompt cb fr n_predict
        temperature top_p) ∧
    (edge_completion_stream_run E prompt cb fr n_predict
      temperature top_p).ret.total_tokens = 0 ∧
    (edge_completion_stream_run E prompt cb fr n_predict
      temperature top_p).ret.tokens_generated = [] ∧
    (edge_completion_stream_run E prompt cb fr n_predict
      temperature top_p).ret.full_response = prompt ∧
    (edge_completion_stream_run E prompt cb fr n_predict
      temperature top_p).ret.stopped_early = false := by
  have hnot : ¬ E.measureCount prompt ≤ 0 := not_le.mpr hm
  have h0 : n_predict.toNat = 0 := Int.toNat_of_nonpos hn
  refine ⟨?_, ?_, ?_, ?_, ?_, ?_⟩
  · simp [edge_completion_internal, hnot, hf, hd, edge_completion_run, h0,
      blockLoop_zero]
  · simp [edge_completion_stream_internal, hnot, hf, hd]
  · simp [edge_completion_stream_run, h0, streamLoop_zero]
  · simp [edge_completion_stream_run, h0, streamLoop_zero]
  · simp [edge_completion_stream_run, h0, streamLoop_zero]
  · simp [edge_completion_stream_run, h0, streamLoop_zero]

/-- Witness for C7 at the engine `engAB` with `n_predict = 0`. -/
theorem nonpositive_n_predict_generates_nothing_witness :
    edge_completion_internal engAB true "p" 0 1 1 = Except.ok "p" ∧
    edge_completion_stream_internal engAB true "p" cbContinue finalQuiet 0 1 1 =
      Except.ok (edge_completion_stream_run engAB "p" cbContinue finalQuiet 0 1 1) ∧
    (edge_completion_stream_run engAB "p" cbContinue finalQuiet
      0 1 1).ret.total_tokens = 0 ∧
    (edge_completion_stream_run engAB "p" cbContinue finalQuiet
      0 1 1).ret.tokens_generated = [] ∧
    (edge_completion_stream_run engAB "p" cbContinue finalQuiet
      0 1 1).ret.full_response = "p" ∧
    (edge_completion_stream_run engAB "p" cbContinue finalQuiet
      0 1 1).ret.stopped_early = false :=
  nonpositive_n_predict_generates_nothing engAB "p" cbContinue finalQuiet 0 1 1
    (by decide) rfl rfl (by decide)

/-- Transport of a boolean characterisation: if a flag is true exactly when a
proposition fails, the flag is false exactly when it holds. -/
theorem eq_false_iff_of_eq_true_iff_not {b : Bool} {P : Prop}
    (h : b = true ↔ ¬ P) : b = false ↔ P := by
  constructor
  · intro hb
    by_contra hnp
    have h1 := h.mpr hnp
    rw [hb] at h1
    cases h1
  · intro hp
    cases hb : b
    · rfl
    · exact absurd hp (h.mp hb)

/-- C2 fails on the code: two streaming completions of the same engine, one
stopping at an end-of-sequence token after one emitted token and one
stopped by the caller after one emitted token, return identical result
lists (`full_response`, `tokens_generated`, `total_tokens`,
`stopped_early`, `original_prompt`), so the returned metadata does not
distinguish the stop causes. -/
theorem stream_stop_cause_not_distinguished :
    edge_completion_stream_internal engA1 true "p" cbContinue finalQuiet 5 1 1 =
      Except.ok (edge_completion_stream_run engA1 "p" cbContinue finalQuiet 5 1 1) ∧
    edge_completion_stream_internal engA1 true "p" cbHalt finalQuiet 5 1 1 =
      Except.ok (edge_completion_stream_run engA1 "p" cbHalt finalQuiet 5 1 1) ∧
    (edge_completion_stream_run engA1 "p" cbContinue finalQuiet 5 1 1).ret =
      (edge_completion_stream_run engA1 "p" cbHalt finalQuiet 5 1 1).ret ∧
    (edge_completion_stream_run engA1 "p" cbContinue finalQuiet 5 1 1).reason =
      StopReason.eog ∧
    (edge_completion_stream_run engA1 "p" cbHalt finalQuiet 5 1 1).reason =
      StopReason.callerStop ∧
    StopReason.eog ≠ StopReason.callerStop :=
  ⟨rfl, rfl, by decide, by decide, by decide, by decide⟩

/-- C2 as amended: the returned metadata distinguishes budget exhaustion
from every early stop — `stopped_early` is false exactly when the loop ran
out of its `n_predict` budget — but end-of-sequence, caller-requested and
decode-failure stops are reported identically. -/
theorem stream_stopped_early_iff_not_budget (E : Engine) (prompt : String)
    (cb : CallbackData → CbResult) (fr : FinalData → Bool) (n_predict : Int)
    (temperature top_p : Rat)
    (hm : 0 < E.measureCount prompt) (hf : E.fillOk prompt = true)
    (hd : E.decodeOk [] (E.promptTokens prompt) = true) :
    edge_completion_stream_internal E true prompt cb fr n_predict
        temperature top_p =
      Except.ok (edge_completion_stream_run E prompt cb fr n_predict
        temperature top_p) ∧
    ((edge_completion_stream_run E prompt cb fr n_predict
        temperature top_p).ret.stopped_early = false ↔
      (edge_completion_stream_run E prompt cb fr n_predict
        temperature top_p).reason = StopReason.budget) := by
  have hnot : ¬ E.measureCount prompt ≤ 0 := not_le.mpr hm
  refine ⟨by simp [edge_completion_stream_internal, hnot, hf, hd], ?_⟩
  exact eq_false_iff_of_eq_true_iff_not
    (streamLoop_stopped E cb (build_sampler_chain temperature top_p)
      (E.promptTokens prompt) n_predict.toNat 0
      { hist := [], full := prompt, toks := [], count := 0, stopped := false,
        warnings := 0, invocations := [], iters := [] } rfl)

/-- Witness for the amended C2 at the engine `engAB`. -/
theorem stream_stopped_early_iff_not_budget_witness :
    edge_completion_stream_internal engAB true "p" cbContinue finalQuiet 5 1 1 =
      Except.ok (edge_completion_stream_run engAB "p" cbContinue finalQuiet 5 1 1) ∧
    ((edge_completion_stream_run engAB "p" cbContinue finalQuiet
        5 1 1).ret.stopped_early = false ↔
      (edge_completion_stream_run engAB "p" cbContinue finalQuiet
        5 1 1).reason = StopReason.budget) :=
  stream_stopped_early_iff_not_budget engAB "p" cbContinue finalQuiet 5 1 1
    (by decide) rfl rfl

/-- C3: with an always-raising callback (and every decode succeeding), the
streaming call still returns normally; every per-token invocation is
downgraded to exactly one warning (plus one for a raising final callback);
the loop never records a caller-requested stop; and the stop metadata
reflects the actual stop reason — end-of-sequence or budget exhaustion. -/
theorem callback_errors_nonfatal (E : Engine) (prompt : String)
    (cb : CallbackData → CbResult) (fr : FinalData → Bool) (n_predict : Int)
    (temperature top_p : Rat)
    (hm : 0 < E.measureCount prompt) (hf : E.fillOk prompt = true)
    (hdec : ∀ c b, E.decodeOk c b = true)
    (hcb : ∀ d, cb d = CbResult.raises) :
    edge_completion_stream_internal E true prompt cb fr n_predict
        temperature top_p =
      Except.ok (edge_completion_stream_run E prompt cb fr n_predict
        temperature top_p) ∧
    (edge_completion_stream_run E prompt cb fr n_predict
        temperature top_p).warnings =
      (edge_completion_stream_run E prompt cb fr n_predict
        temperature top_p).invocations.length +
      (if (edge_completion_stream_run E prompt cb fr n_predict
        temperature top_p).finalWarned then 1 else 0) ∧
    (edge_completion_stream_run E prompt cb fr n_predict
      temperature top_p).reason ≠ StopReason.callerStop ∧
    ((edge_completion_stream_run E prompt cb fr n_predict
        temperature top_p).reason = StopReason.eog ∨
      (edge_completion_stream_run E prompt cb fr n_predict
        temperature top_p).reason = StopReason.budget) ∧
    ((edge_completion_stream_run E prompt cb fr n_predict
        temperature top_p).ret.stopped_early = true ↔
      (edge_completion_stream_run E prompt cb fr n_predict
        temperature top_p).reason = StopReason.eog) := by
  have hdp : E.decodeOk [] (E.promptTokens prompt) = true :=
    hdec [] (E.promptTokens prompt)
  have hnot : ¬ E.measureCount prompt ≤ 0 := not_le.mpr hm
  have hstop2 : ∀ d, stopSignal (cb d) = false := fun d => by
    rw [hcb d]
    rfl
  have hEB := streamLoop_reason_eog_or_budget E cb
    (build_sampler_chain temperature top_p) (E.promptTokens prompt) hdec hstop2
    n_predict.toNat 0
    { hist := [], full := prompt, toks := [], count := 0, stopped := false,
      warnings := 0, invocations := [], iters := [] }
  refine ⟨by simp [edge_completion_stream_internal, hnot, hf, hdp], ?_, ?_, ?_, ?_⟩
  · have hW := streamLoop_warnings_raises E cb
      (build_sampler_chain temperature top_p) (E.promptTokens prompt) hcb
      n_predict.toNat 0
      { hist := [], full := prompt, toks := [], count := 0, stopped := false,
        warnings := 0, invocations := [], iters := [] } rfl
    simp only [edge_completion_stream_run]
    rw [hW]
  · have hNC := streamLoop_no_callerStop E cb
      (build_sampler_chain temperature top_p) (E.promptTokens prompt) hstop2
      n_predict.toNat 0
      { hist := [], full := prompt, toks := [], count := 0, stopped := false,
        warnings := 0, invocations := [], iters := [] }
    simp only [edge_completion_stream_run]
    exact hNC
  · simp only [edge_completion_stream_run]
    exact hEB
  · have hS := streamLoop_stopped E cb (build_sampler_chain temperature top_p)
      (E.promptTokens prompt) n_predict.toNat 0
      { hist := [], full := prompt, toks := [], count := 0, stopped := false,
        warnings := 0, invocations := [], iters := [] } rfl
    simp only [edge_completion_stream_run]
    rcases hEB with hEo | hBu
    · simp [hEo] at hS ⊢
      exact hS
    · simp [hBu] at hS ⊢
      exact hS

/-- Witness for C3 at the engine `engAB` with an always-raising per-token
callback and a raising final callback. -/
theorem callback_errors_nonfatal_witness :
    edge_completion_stream_internal engAB true "p" cbRaising finalRaising 5 1 1 =
      Except.ok (edge_completion_stream_run engAB "p" cbRaising finalRaising 5 1 1) ∧
    (edge_completion_stream_run engAB "p" cbRaising finalRaising 5 1 1).warnings =
      (edge_completion_stream_run engAB "p" cbRaising finalRaising
        5 1 1).invocations.length +
      (if (edge_completion_stream_run engAB "p" cbRaising finalRaising
        5 1 1).finalWarned then 1 else 0) ∧
    (edge_completion_stream_run engAB "p" cbRaising finalRaising 5 1 1).reason ≠
      StopReason.callerStop ∧
    ((edge_completion_stream_run engAB "p" cbRaising finalRaising 5 1 1).reason =
        StopReason.eog ∨
      (edge_completion_stream_run engAB "p" cbRaising finalRaising 5 1 1).reason =
        StopReason.budget) ∧
    ((edge_completion_stream_run engAB "p" cbRaising finalRaising
        5 1 1).ret.stopped_early = true ↔
      (edge_completion_stream_run engAB "p" cbRaising finalRaising 5 1 1).reason =
        StopReason.eog) :=
  callback_errors_nonfatal engAB "p" cbRaising finalRaising 5 1 1
    (by decide) rfl (fun c b => rfl) (fun d => rfl)

/-- C4: when the callback answers the first counted token (the invocation
with `total_tokens = 1`) with the logical value false, and some token is
emitted, the streaming call stops with a caller-requested stop,
`stopped_early = true` and `total_tokens = 1`, and the stopping token is
never accepted or decoded (the history is one short of the logged
iterations). -/
theorem stream_callback_false_first_token (E : Engine) (prompt : String)
    (cb : CallbackData → CbResult) (fr : FinalData → Bool) (n_predict : Int)
    (temperature top_p : Rat)
    (hm : 0 < E.measureCount prompt) (hf : E.fillOk prompt = true)
    (hd : E.decodeOk [] (E.promptTokens prompt) = true)
    (hcb : ∀ d, d.total_tokens = 1 → stopSignal (cb d) = true)
    (hne : (edge_completion_stream_run E prompt cb fr n_predict
      temperature top_p).invocations ≠ []) :
    edge_completion_stream_internal E true prompt cb fr n_predict
        temperature top_p =
      Except.ok (edge_completion_stream_run E prompt cb fr n_predict
        temperature top_p) ∧
    (edge_completion_stream_run E prompt cb fr n_predict
      temperature top_p).ret.stopped_early = true ∧
    (edge_completion_stream_run E prompt cb fr n_predict
      temperature top_p).ret.total_tokens = 1 ∧
    (edge_completion_stream_run E prompt cb fr n_predict
      temperature top_p).reason = StopReason.callerStop ∧
    (edge_completion_stream_run E prompt cb fr n_predict
        temperature top_p).accepted.length + 1 =
      (edge_completion_stream_run E prompt cb fr n_predict
        temperature top_p).iters.length := by
  have hnot : ¬ E.measureCount prompt ≤ 0 := not_le.mpr hm
  have hFS := streamLoop_first_stop E cb (build_sampler_chain temperature top_p)
    (E.promptTokens prompt) hcb n_predict.toNat 0
    { hist := [], full := prompt, toks := [], count := 0, stopped := false,
      warnings := 0, invocations := [], iters := [] } rfl rfl
  simp only [edge_completion_stream_run] at hne
  rcases hFS with ⟨hI, _⟩ | ⟨h1, h2, h3, h4, h5⟩
  · exact absurd hI hne
  · simp only [List.length_nil] at h5
    refine ⟨by simp [edge_completion_stream_internal, hnot, hf, hd], ?_, ?_, ?_, ?_⟩
    · simp only [edge_completion_stream_run]
      exact h2
    · simp only [edge_completion_stream_run]
      exact h1
    · simp only [edge_completion_stream_run]
      exact h3
    · simp only [edge_completion_stream_run]
      omega

/-- Witness for C4 at the engine `engAB` with the constantly-false
callback. -/
theorem stream_callback_false_first_token_witness :
    edge_completion_stream_internal engAB true "p" cbHalt finalQuiet 5 1 1 =
      Except.ok (edge_completion_stream_run engAB "p" cbHalt finalQuiet 5 1 1) ∧
    (edge_completion_stream_run engAB "p" cbHalt finalQuiet
      5 1 1).ret.stopped_early = true ∧
    (edge_completion_stream_run engAB "p" cbHalt finalQuiet
      5 1 1).ret.total_tokens = 1 ∧
    (edge_completion_stream_run engAB "p" cbHalt finalQuiet 5 1 1).reason =
      StopReason.callerStop ∧
    (edge_completion_stream_run engAB "p" cbHalt finalQuiet
        5 1 1).accepted.length + 1 =
      (edge_completion_stream_run engAB "p" cbHalt finalQuiet 5 1 1).iters.length :=
  stream_callback_false_first_token engAB "p" cbHalt finalQuiet 5 1 1
    (by decide) rfl rfl (fun d _ => rfl) (by decide)

/-- C8: the sampler chain is a pure function of the caller's parameters,
built once per call (both completion runs consume exactly
`build_sampler_chain temperature top_p`, so no sampler state can cross
calls): it contains the nucleus stage exactly when `top_p < 1`, the
temperature stage exactly when `temperature > 0`, and its last stage is
always the categorical draw with the fixed seed 12345 — the only draw
stage it ever contains. -/
theorem sampler_chain_structure (temperature top_p : Rat) :
    (SamplerStage.topP top_p 1 ∈ build_sampler_chain temperature top_p ↔
      top_p < 1) ∧
    (SamplerStage.temp temperature ∈ build_sampler_chain temperature top_p ↔
      0 < temperature) ∧
    (∀ s, SamplerStage.dist s ∈ build_sampler_chain temperature top_p ↔
      s = 12345) ∧
    (build_sampler_chain temperature top_p).getLast? =
      some (SamplerStage.dist 12345) ∧
    (∀ (E : Engine) (prompt : String) (n_predict : Int),
      (edge_completion_run E prompt n_predict temperature top_p).res =
        (blockLoop E (build_sampler_chain temperature top_p)
          (E.promptTokens prompt) n_predict.toNat
          { hist := [], res := prompt, iters := [] }).1.res) ∧
    (∀ (E : Engine) (prompt : String) (cb : CallbackData → CbResult)
        (fr : FinalData → Bool) (n_predict : Int),
      (edge_completion_stream_run E prompt cb fr n_predict
          temperature top_p).ret.full_response =
        (streamLoop E cb (build_sampler_chain temperature top_p)
          (E.promptTokens prompt) n_predict.toNat 0
          { hist := [], full := prompt, toks := [], count := 0,
            stopped := false, warnings := 0, invocations := [],
            iters := [] }).1.full) := by
  refine ⟨?_, ?_, ?_, ?_, fun E prompt n_predict => rfl,
    fun E prompt cb fr n_predict => rfl⟩
  · by_cases h1 : top_p < 1 <;> by_cases h2 : 0 < temperature <;>
      simp [build_sampler_chain, h1, h2]
  · by_cases h1 : top_p < 1 <;> by_cases h2 : 0 < temperature <;>
      simp [build_sampler_chain, h1, h2]
  · intro s
    by_cases h1 : top_p < 1 <;> by_cases h2 : 0 < temperature <;>
      simp [build_sampler_chain, h1, h2, eq_comm]
  · by_cases h1 : top_p < 1 <;> by_cases h2 : 0 < temperature <;>
      simp [build_sampler_chain, h1, h2]

/-- Witness for C8 at `temperature = 1`, `top_p = 1/2`, instantiating the
membership characterisations and the last-stage fact. -/
theorem sampler_chain_structure_witness :
    (SamplerStage.topP (1 / 2) 1 ∈ build_sampler_chain 1 (1 / 2) ↔
      (1 : Rat) / 2 < 1) ∧
    (SamplerStage.temp 1 ∈ build_sampler_chain 1 (1 / 2) ↔ (0 : Rat) < 1) ∧
    (∀ s, SamplerStage.dist s ∈ build_sampler_chain 1 (1 / 2) ↔ s = 12345) ∧
    (build_sampler_chain 1 (1 / 2)).getLast? = some (SamplerStage.dist 12345) ∧
    (∀ (E : Engine) (prompt : String) (n_predict : Int),
      (edge_completion_run E prompt n_predict 1 (1 / 2)).res =
        (blockLoop E (build_sampler_chain 1 (1 / 2)) (E.promptTokens prompt)
          n_predict.toNat { hist := [], res := prompt, iters := [] }).1.res) ∧
    (∀ (E : Engine) (prompt : String) (cb : CallbackData → CbResult)
        (fr : FinalData → Bool) (n_predict : Int),
      (edge_completion_stream_run E prompt cb fr n_predict
          1 (1 / 2)).ret.full_response =
        (streamLoop E cb (build_sampler_chain 1 (1 / 2)) (E.promptTokens prompt)
          n_predict.toNat 0
          { hist := [], full := prompt, toks := [], count := 0,
            stopped := false, warnings := 0, invocations := [],
            iters := [] }).1.full) :=
  sampler_chain_structure 1 (1 / 2)

/-- C9: in both completion modes an end-of-generation token stops the loop
at once and contributes nothing: iteration logs mark end-of-generation
tokens exactly at their stop entry (which emits no piece), every token
accepted into the sampler history and decoded into the context is
non-end-of-generation, the token count and callback-invocation texts cover
exactly the emitted pieces, and the result text is the prompt followed by
the emitted pieces alone. -/
theorem eog_token_never_emitted (E : Engine) (prompt : String)
    (cb : CallbackData → CbResult) (fr : FinalData → Bool) (n_predict : Int)
    (temperature top_p : Rat) :
    (∀ p ∈ (edge_completion_run E prompt n_predict temperature top_p).iters,
      E.isEog p.1 = true ↔ p.2 = BlockOutcome.eogStop) ∧
    (∀ t ∈ (edge_completion_run E prompt n_predict temperature top_p).hist,
      E.isEog t = false) ∧
    (edge_completion_run E prompt n_predict temperature top_p).res =
      prompt ++ joinAll (blockEmitted
        (edge_completion_run E prompt n_predict temperature top_p).iters) ∧
    (∀ p ∈ (edge_completion_stream_run E prompt cb fr n_predict
        temperature top_p).iters,
      E.isEog p.1 = true ↔ p.2 = StreamOutcome.eogStop) ∧
    (∀ t ∈ (edge_completion_stream_run E prompt cb fr n_predict
        temperature top_p).accepted, E.isEog t = false) ∧
    (edge_completion_stream_run E prompt cb fr n_predict
        temperature top_p).ret.total_tokens =
      (emittedStrings (edge_completion_stream_run E prompt cb fr n_predict
        temperature top_p).iters).length ∧
    (edge_completion_stream_run E prompt cb fr n_predict
        temperature top_p).invocations.map (fun d => d.token) =
      emittedStrings (edge_completion_stream_run E prompt cb fr n_predict
        temperature top_p).iters ∧
    (edge_completion_stream_run E prompt cb fr n_predict
        temperature top_p).ret.full_response =
      prompt ++ joinAll (emittedStrings
        (edge_completion_stream_run E prompt cb fr n_predict
          temperature top_p).iters) := by
  obtain ⟨newB, hb1, hb2, hb3⟩ := blockLoop_spec E
    (build_sampler_chain temperature top_p) (E.promptTokens prompt)
    n_predict.toNat { hist := [], res := prompt, iters := [] }
  obtain ⟨newS, h1, h2, h3, h4, h5, h6⟩ := streamLoop_spec E cb
    (build_sampler_chain temperature top_p) (E.promptTokens prompt)
    n_predict.toNat 0
    { hist := [], full := prompt, toks := [], count := 0, stopped := false,
      warnings := 0, invocations := [], iters := [] }
  simp only [List.nil_append] at hb1 hb2 hb3 h1 h2 h3 h4 h5 h6
  have hbiff := blockLoop_eog_iff E (build_sampler_chain temperature top_p)
    (E.promptTokens prompt) n_predict.toNat
    { hist := [], res := prompt, iters := [] } (by intro p hp; cases hp)
  have hsiff := streamLoop_eog_iff E cb (build_sampler_chain temperature top_p)
    (E.promptTokens prompt) n_predict.toNat 0
    { hist := [], full := prompt, toks := [], count := 0, stopped := false,
      warnings := 0, invocations := [], iters := [] } (by intro p hp; cases hp)
  refine ⟨?_, ?_, ?_, ?_, ?_, ?_, ?_, ?_⟩
  · simp only [edge_completion_run]
    exact hbiff
  · simp only [edge_completion_run]
    intro t ht
    rw [hb3] at ht
    obtain ⟨p, hpmem, hpeq⟩ := List.mem_filterMap.mp ht
    cases hmatch : p.2 with
    | eogStop =>
      rw [hmatch] at hpeq
      simp [blockWent] at hpeq
    | went a d =>
      rw [hmatch] at hpeq
      simp only [Option.some.injEq] at hpeq
      subst hpeq
      cases hiseog : E.isEog p.1 with
      | false => rfl
      | true =>
        have := (hbiff p (by rw [hb1]; exact hpmem)).mp hiseog
        rw [hmatch] at this
        cases this
  · simp only [edge_completion_run]
    rw [hb2, hb1]
  · simp only [edge_completion_stream_run]
    exact hsiff
  · simp only [edge_completion_stream_run]
    intro t ht
    rw [h6] at ht
    obtain ⟨p, hpmem, hpeq⟩ := List.mem_filterMap.mp ht
    have hmem2 : p ∈ (streamLoop E cb (build_sampler_chain temperature top_p)
        (E.promptTokens prompt) n_predict.toNat 0
        { hist := [], full := prompt, toks := [], count := 0, stopped := false,
          warnings := 0, invocations := [], iters := [] }).1.iters := by
      rw [h1]; exact hpmem
    cases hmatch : p.2 with
    | eogStop =>
      rw [hmatch] at hpeq
      cases hpeq
    | emitStop s r =>
      rw [hmatch] at hpeq
      cases hpeq
    | emitGo s r d =>
      rw [hmatch] at hpeq
      simp only [Option.some.injEq] at hpeq
      subst hpeq
      cases hiseog : E.isEog p.1 with
      | false => rfl
      | true =>
        have := (hsiff p hmem2).mp hiseog
        rw [hmatch] at this
        cases this
    | skipGo d =>
      rw [hmatch] at hpeq
      simp only [Option.some.injEq] at hpeq
      subst hpeq
      cases hiseog : E.isEog p.1 with
      | false => rfl
      | true =>
        have := (hsiff p hmem2).mp hiseog
        rw [hmatch] at this
        cases this
  · simp only [edge_completion_stream_run]
    rw [h4, h1]
    simp
  · simp only [edge_completion_stream_run]
    rw [h5, h1]
    simp
  · simp only [edge_completion_stream_run]
    rw [h3, h1]

/-- Witness for C9 at the engine `engAB` with a never-stopping callback. -/
theorem eog_token_never_emitted_witness :
    (∀ p ∈ (edge_completion_run engAB "p" 5 1 1).iters,
      engAB.isEog p.1 = true ↔ p.2 = BlockOutcome.eogStop) ∧
    (∀ t ∈ (edge_completion_run engAB "p" 5 1 1).hist,
      engAB.isEog t = false) ∧
    (edge_completion_run engAB "p" 5 1 1).res =
      "p" ++ joinAll (blockEmitted (edge_completion_run engAB "p" 5 1 1).iters) ∧
    (∀ p ∈ (edge_completion_stream_run engAB "p" cbContinue finalQuiet 5 1 1).iters,
      engAB.isEog p.1 = true ↔ p.2 = StreamOutcome.eogStop) ∧
    (∀ t ∈ (edge_completion_stream_run engAB "p" cbContinue finalQuiet
        5 1 1).accepted, engAB.isEog t = false) ∧
    (edge_completion_stream_run engAB "p" cbContinue finalQuiet
        5 1 1).ret.total_tokens =
      (emittedStrings (edge_completion_stream_run engAB "p" cbContinue finalQuiet
        5 1 1).iters).length ∧
    (edge_completion_stream_run engAB "p" cbContinue finalQuiet
        5 1 1).invocations.map (fun d => d.token) =
      emittedStrings (edge_completion_stream_run engAB "p" cbContinue finalQuiet
        5 1 1).iters ∧
    (edge_completion_stream_run engAB "p" cbContinue finalQuiet
        5 1 1).ret.full_response =
      "p" ++ joinAll (emittedStrings
        (edge_completion_stream_run engAB "p" cbContinue finalQuiet 5 1 1).iters) :=
  eog_token_never_emitted engAB "p" cbContinue finalQuiet 5 1 1

/-- C10: in streaming mode, a sampled non-end-of-generation token whose
piece is empty triggers no callback and is not counted, appended or listed
(invocations, count, fragment list and response cover exactly the emitted
pieces), yet it is still accepted into the sampler history and decoded into
the context; consequently a later callback's position (iteration index plus
one) can exceed `total_tokens`, as the concrete engine `engSkip` shows:
its single invocation carries position 2 while only one token is ever
counted. -/
theorem empty_piece_skipped_but_decoded :
    (∀ (E : Engine) (prompt : String) (cb : CallbackData → CbResult)
        (fr : FinalData → Bool) (n_predict : Int) (temperature top_p : Rat),
      (edge_completion_stream_run E prompt cb fr n_predict temperature
          top_p).invocations.map (fun d => d.token) =
        emittedStrings (edge_completion_stream_run E prompt cb fr n_predict
          temperature top_p).iters ∧
      (edge_completion_stream_run E prompt cb fr n_predict temperature
          top_p).ret.total_tokens =
        (emittedStrings (edge_completion_stream_run E prompt cb fr n_predict
          temperature top_p).iters).length ∧
      (edge_completion_stream_run E prompt cb fr n_predict temperature
          top_p).ret.tokens_generated =
        emittedStrings (edge_completion_stream_run E prompt cb fr n_predict
          temperature top_p).iters ∧
      (edge_completion_stream_run E prompt cb fr n_predict temperature
          top_p).ret.full_response =
        prompt ++ joinAll (emittedStrings (edge_completion_stream_run E prompt
          cb fr n_predict temperature top_p).iters) ∧
      (edge_completion_stream_run E prompt cb fr n_predict temperature
          top_p).accepted =
        wentTokens (edge_completion_stream_run E prompt cb fr n_predict
          temperature top_p).iters ∧
      (∀ p ∈ (edge_completion_stream_run E prompt cb fr n_predict temperature
          top_p).iters, p.2 = StreamOutcome.skipGo true →
        p.1 ∈ (edge_completion_stream_run E prompt cb fr n_predict temperature
          top_p).accepted)) ∧
    ((edge_completion_stream_run engSkip "p" cbContinue finalQuiet
        5 1 1).iters.map (fun p => p.2) =
      [StreamOutcome.skipGo true,
        StreamOutcome.emitGo "a" CbResult.nonLogical true,
        StreamOutcome.eogStop] ∧
      (edge_completion_stream_run engSkip "p" cbContinue finalQuiet
        5 1 1).invocations = [cbData "a" 2 1] ∧
      (edge_completion_stream_run engSkip "p" cbContinue finalQuiet
        5 1 1).ret.total_tokens = 1 ∧
      1 < (cbData "a" 2 1).position ∧
      (cbData "a" 2 1).position >
        (edge_completion_stream_run engSkip "p" cbContinue finalQuiet
          5 1 1).ret.total_tokens ∧
      (edge_completion_stream_run engSkip "p" cbContinue finalQuiet
        5 1 1).accepted = [3, 1]) := by
  constructor
  · intro E prompt cb fr n_predict temperature top_p
    obtain ⟨newS, h1, h2, h3, h4, h5, h6⟩ := streamLoop_spec E cb
      (build_sampler_chain temperature top_p) (E.promptTokens prompt)
      n_predict.toNat 0
      { hist := [], full := prompt, toks := [], count := 0, stopped := false,
        warnings := 0, invocations := [], iters := [] }
    simp only [List.nil_append] at h1 h2 h3 h4 h5 h6
    refine ⟨?_, ?_, ?_, ?_, ?_, ?_⟩
    · simp only [edge_completion_stream_run]
      rw [h5, h1]
      simp
    · simp only [edge_completion_stream_run]
      rw [h4, h1]
      simp
    · simp only [edge_completion_stream_run]
      rw [h2, h1]
    · simp only [edge_completion_stream_run]
      rw [h3, h1]
    · simp only [edge_completion_stream_run]
      rw [h6, h1]
    · simp only [edge_completion_stream_run]
      intro p hpmem hpsk
      rw [h6]
      apply List.mem_filterMap.mpr
      refine ⟨p, by rw [h1] at hpmem; exact hpmem, ?_⟩
      rw [hpsk]
  · refine ⟨by decide, by decide, by decide, by decide, by decide, by decide⟩

/-- Witness for C10, instantiating its universal part at the engine
`engSkip` whose first sampled token has an empty piece. -/
theorem empty_piece_skipped_but_decoded_witness :
    (edge_completion_stream_run engSkip "p" cbContinue finalQuiet
        5 1 1).invocations.map (fun d => d.token) =
      emittedStrings (edge_completion_stream_run engSkip "p" cbContinue
        finalQuiet 5 1 1).iters ∧
    (edge_completion_stream_run engSkip "p" cbContinue finalQuiet
        5 1 1).ret.total_tokens =
      (emittedStrings (edge_completion_stream_run engSkip "p" cbContinue
        finalQuiet 5 1 1).iters).length ∧
    (edge_completion_stream_run engSkip "p" cbContinue finalQuiet
        5 1 1).ret.tokens_generated =
      emittedStrings (edge_completion_stream_run engSkip "p" cbContinue
        finalQuiet 5 1 1).iters ∧
    (edge_completion_stream_run engSkip "p" cbContinue finalQuiet
        5 1 1).ret.full_response =
      "p" ++ joinAll (emittedStrings (edge_completion_stream_run engSkip "p"
        cbContinue finalQuiet 5 1 1).iters) ∧
    (edge_completion_stream_run engSkip "p" cbContinue finalQuiet
        5 1 1).accepted =
      wentTokens (edge_completion_stream_run engSkip "p" cbContinue finalQuiet
        5 1 1).iters ∧
    (∀ p ∈ (edge_completion_stream_run engSkip "p" cbContinue finalQuiet
        5 1 1).iters, p.2 = StreamOutcome.skipGo true →
      p.1 ∈ (edge_completion_stream_run engSkip "p" cbContinue finalQuiet
        5 1 1).accepted) :=
  empty_piece_skipped_but_decoded.1 engSkip "p" cbContinue finalQuiet 5 1 1

/-- C5: freeing a handle releases the context first and then the model, nulls
both references, and never raises; a second free performs no release calls
and is a no-op, and `is_valid_model_internal` is false after either free. -/
theorem free_model_ctx_then_model_idempotent (e : EdgeModelContext)
    (c m : Nat) (hc : e.ctx = some c) (hm : e.model = some m) :
    (edge_free_model_internal e).events = [FreeEvent.freeCtx c, FreeEvent.freeModel m] ∧
    (edge_free_model_internal e).state = { model := none, ctx := none } ∧
    (edge_free_model_internal e).raised = false ∧
    (edge_free_model_internal (edge_free_model_internal e).state).events = [] ∧
    (edge_free_model_internal (edge_free_model_internal e).state).state =
      { model := none, ctx := none } ∧
    (edge_free_model_internal (edge_free_model_internal e).state).raised = false ∧
    is_valid_model_internal (some (edge_free_model_internal e).state) = false ∧
    is_valid_model_internal
      (some (edge_free_model_internal (edge_free_model_internal e).state).state) = false := by
  simp [edge_free_model_internal, hc, hm, is_valid_model_internal,
    EdgeModelContext.is_valid]

/-- Witness for C5 at the concrete handle with model reference 2 and context
reference 1. -/
theorem free_model_ctx_then_model_idempotent_witness :
    (edge_free_model_internal { model := some 2, ctx := some 1 }).events =
      [FreeEvent.freeCtx 1, FreeEvent.freeModel 2] ∧
    (edge_free_model_internal { model := some 2, ctx := some 1 }).state =
      { model := none, ctx := none } ∧
    (edge_free_model_internal { model := some 2, ctx := some 1 }).raised = false ∧
    (edge_free_model_internal
      (edge_free_model_internal { model := some 2, ctx := some 1 }).state).events = [] ∧
    (edge_free_model_internal
      (edge_free_model_internal { model := some 2, ctx := some 1 }).state).state =
      { model := none, ctx := none } ∧
    (edge_free_model_internal
      (edge_free_model_internal { model := some 2, ctx := some 1 }).state).raised = false ∧
    is_valid_model_internal
      (some (edge_free_model_internal { model := some 2, ctx := some 1 }).state) = false ∧
    is_valid_model_internal
      (some (edge_free_model_internal
        (edge_free_model_internal { model := some 2, ctx := some 1 }).state).state) = false :=
  free_model_ctx_then_model_idempotent { model := some 2, ctx := some 1 } 1 2 rfl rfl

/-- C6: when the model loads but context creation fails, the loaded model is
released before the error is signalled, and no handle is produced. -/
theorem load_model_frees_model_on_ctx_failure (m : Nat) (fileGood : Bool)
    (mkCtx : Nat → Option Nat) (hctx : mkCtx m = none) :
    (edge_load_model_internal (some m) fileGood mkCtx).result =
      Except.error "Failed to create context for model" ∧
    (edge_load_model_internal (some m) fileGood mkCtx).freedModels = [m] := by
  simp [edge_load_model_internal, hctx]

/-- Witness for C6: model reference 5 loads, context creation always fails. -/
theorem load_model_frees_model_on_ctx_failure_witness :
    (edge_load_model_internal (some 5) true (fun _ => none)).result =
      Except.error "Failed to create context for model" ∧
    (edge_load_model_internal (some 5) true (fun _ => none)).freedModels = [5] :=
  load_model_frees_model_on_ctx_failure 5 true (fun _ => none) rfl

end EdgeModel
